import Mathlib

/-!
Shallow embedding of the trading bot's command interpreter and trade
orchestrator (`src/v1/trade.js` of the telegram-binance-bot repository).

JavaScript numbers are modelled by `JSNum`: `NaN`, the two infinities, and
finite values as exact rationals (IEEE-754 rounding of decimal literals is
not modelled; the literals appearing in commands are taken at their exact
decimal value).  The relevant JS string builtins (`parseInt`, `parseFloat`,
`String.prototype.replace` with a single-character pattern, `split`,
`toUpperCase`, `trim`) are embedded directly.

The Binance client is modelled as an oracle (`Gateway`) mapping each request
to either a result or an error; every bot method returns the list of gateway
calls it issued (its trace) together with its result, mirroring the
`async`/`throw` control flow of the source with `Except`.  Console logging is
modelled only for `parseCommand`, where it is behaviourally relevant.
-/

namespace TelegramBinanceBot

/-- Model of a JavaScript number: `NaN`, `±Infinity`, or a finite value
represented as an exact rational. -/
inductive JSNum where
  | nan
  | inf
  | negInf
  | val (q : ℚ)
deriving DecidableEq, Repr

/-- JS `isNaN(n)` for an already-numeric `n`. -/
def jsIsNaN : JSNum → Bool
  | .nan => true
  | _ => false

/-- JS comparison `n <= 0` (false on `NaN`). -/
def jsLeZero : JSNum → Bool
  | .nan => false
  | .inf => false
  | .negInf => true
  | .val q => decide (q ≤ 0)

/-- JS truthiness of a number: `NaN`, `0` and `-0` are falsy. -/
def jsTruthy : JSNum → Bool
  | .nan => false
  | .inf => true
  | .negInf => true
  | .val q => decide (q ≠ 0)

/-- JS truthiness of a number-or-`null` value (`null` is falsy). -/
def jsOptTruthy : Option JSNum → Bool
  | none => false
  | some n => jsTruthy n

/-- Numeric value of a list of decimal digit characters. -/
def digitsToNat (ds : List Char) : Nat :=
  ds.foldl (fun a c => 10 * a + (c.toNat - 48)) 0

/-- Value of one hexadecimal digit character, if it is one. -/
def hexDigitVal (c : Char) : Option Nat :=
  if '0' ≤ c ∧ c ≤ '9' then some (c.toNat - 48)
  else if 'a' ≤ c ∧ c ≤ 'f' then some (c.toNat - 87)
  else if 'A' ≤ c ∧ c ≤ 'F' then some (c.toNat - 55)
  else none

/-- Numeric value of a list of hexadecimal digit characters. -/
def hexToNat (ds : List Char) : Nat :=
  ds.foldl (fun a c => 16 * a + ((hexDigitVal c).getD 0)) 0

/-- Whether `c` is a hexadecimal digit character. -/
def isHexDigit (c : Char) : Bool :=
  (hexDigitVal c).isSome

/-- JS `parseInt(s)` with no radix argument: skip leading whitespace, read an
optional sign, honour a `0x`/`0X` prefix as hexadecimal, then take the longest
run of digits; `none` models the `NaN` result. -/
def jsParseInt (s : String) : Option Int :=
  let cs := s.toList.dropWhile (fun c => c.isWhitespace)
  let sign : Int := match cs with
    | '-' :: _ => -1
    | _ => 1
  let cs := match cs with
    | '-' :: r => r
    | '+' :: r => r
    | r => r
  match cs with
  | '0' :: x :: r =>
    if x = 'x' ∨ x = 'X' then
      let ds := r.takeWhile isHexDigit
      if ds.isEmpty then none else some (sign * (hexToNat ds : Int))
    else
      let ds := ('0' :: x :: r).takeWhile (fun c => c.isDigit)
      if ds.isEmpty then none else some (sign * (digitsToNat ds : Int))
  | r =>
    let ds := r.takeWhile (fun c => c.isDigit)
    if ds.isEmpty then none else some (sign * (digitsToNat ds : Int))

/-- Whether the first list is a prefix of the second (used to model JS
`startsWith` and the `Infinity` literal check). -/
def litPrefix : List Char → List Char → Bool
  | [], _ => true
  | _ :: _, [] => false
  | p :: ps, c :: cs => p = c && litPrefix ps cs

/-- JS `s.startsWith(p)`, which matches case-sensitively. -/
def jsStartsWith (s p : String) : Bool :=
  litPrefix p.toList s.toList

/-- JS `s.toUpperCase()` (character-wise uppercasing). -/
def jsToUpper (s : String) : String :=
  ⟨s.toList.map Char.toUpper⟩

/-- JS `parseFloat(s)`: skip leading whitespace, read an optional sign, then
the longest prefix that is `Infinity` or a decimal literal
(`digits [. digits] [e|E [sign] digits]` or `. digits …`); `NaN` when no such
prefix exists.  Finite results are kept as exact rationals. -/
def jsParseFloat (s : String) : JSNum :=
  let cs := s.toList.dropWhile (fun c => c.isWhitespace)
  let neg : Bool := match cs with
    | '-' :: _ => true
    | _ => false
  let cs := match cs with
    | '-' :: r => r
    | '+' :: r => r
    | r => r
  if litPrefix ("Infinity".toList) cs then
    if neg then .negInf else .inf
  else
    let ip := cs.takeWhile (fun c => c.isDigit)
    let rest := cs.dropWhile (fun c => c.isDigit)
    let fp : List Char := match rest with
      | '.' :: r => r.takeWhile (fun c => c.isDigit)
      | _ => []
    let rest2 : List Char := match rest with
      | '.' :: r => r.dropWhile (fun c => c.isDigit)
      | r => r
    if ip.isEmpty ∧ fp.isEmpty then .nan
    else
      let ex : Int := match rest2 with
        | e :: r =>
          if e = 'e' ∨ e = 'E' then
            let esign : Int := match r with
              | '-' :: _ => -1
              | _ => 1
            let r2 := match r with
              | '-' :: t => t
              | '+' :: t => t
              | t => t
            let ed := r2.takeWhile (fun c => c.isDigit)
            if ed.isEmpty then 0 else esign * (digitsToNat ed : Int)
          else 0
        | [] => 0
      let mant : Nat := digitsToNat ip * 10 ^ fp.length + digitsToNat fp
      let sNum : Int := if neg then -(mant : Int) else (mant : Int)
      let pw : Int := ex - (fp.length : Int)
      if 0 ≤ pw then .val (mkRat (sNum * (10 : Int) ^ pw.toNat) 1)
      else .val (mkRat sNum ((10 : Nat) ^ (-pw).toNat))

/-- Remove the first occurrence of `c` from a character list. -/
def removeFirst (c : Char) : List Char → List Char
  | [] => []
  | a :: r => if a = c then r else a :: removeFirst c r

/-- JS `s.replace(c, '')` for a single-character string pattern: only the
first occurrence is removed, and matching is case-sensitive. -/
def jsReplaceFirst (s : String) (c : Char) : String :=
  ⟨removeFirst c s.toList⟩

/-- JS `s.split('=')[1]`: the segment strictly between the first and second
`'='` (to the end when there is no second one).  Only used on strings that
contain a `'='`. -/
def splitEqGet1 (s : String) : String :=
  ⟨((s.toList.dropWhile (fun c => c ≠ '=')).drop 1).takeWhile (fun c => c ≠ '=')⟩

/-- Split a character list at every whitespace character (the splitting
behaviour of `split` with a single-character separator). -/
def splitWs : List Char → List Char → List (List Char)
  | [], acc => [acc.reverse]
  | c :: r, acc =>
    if c.isWhitespace then acc.reverse :: splitWs r []
    else splitWs r (c :: acc)

/-- JS `s.trim()`: strip leading and trailing whitespace. -/
def jsTrim (s : String) : List Char :=
  ((s.toList.dropWhile (fun c => c.isWhitespace)).reverse.dropWhile
    (fun c => c.isWhitespace)).reverse

/-- JS `command.trim().split(/\s+/)`: trimming first, then splitting on runs
of whitespace (on a trimmed string, splitting on the regex `\s+` equals
splitting at each whitespace character and dropping the empty pieces that
consecutive whitespace produces); the empty string splits to `[""]`. -/
def tokenize (s : String) : List String :=
  let t := jsTrim s
  if t = [] then [""]
  else ((splitWs t []).filter (fun w => w ≠ [])).map (fun w => (⟨w⟩ : String))

/-- The trade-parameter object built by `parseCommand` (the spec's
TradeIntent).  Fields keep the source's representation: `side` is the string
`"LONG"` or `"SHORT"`, absent stop-loss/take-profit are `null` (`none`). -/
structure TradeParams where
  side : String
  symbol : String
  leverage : Int
  quantity : JSNum
  stopLoss : Option JSNum
  takeProfit : Option JSNum
  hold : Bool
deriving DecidableEq, Repr

/-- The four distinct errors thrown inside `parseCommand`'s `try` block (the
spec's ParseFailure reasons). -/
inductive ParseErr where
  | insufficientParameters
  | invalidDirection
  | invalidLeverage
  | invalidQuantity
deriving DecidableEq, Repr

/-- The message of the `Error` thrown for each parse failure. -/
def errMessage : ParseErr → String
  | .insufficientParameters => "Недостаточно параметров в команде"
  | .invalidDirection => "Неверное направление сделки. Используйте BUY или SELL"
  | .invalidLeverage => "Неверное значение плеча"
  | .invalidQuantity => "Неверное количество для ордера"

/-- One iteration of the optional-parameter loop (`for i = 4; …`): a token is
tested against the case-sensitive prefixes `SL=` and `TP=` (a parsable value
overwrites the field, an unparsable one is ignored), then against
case-insensitive `HOLD`; any other token is ignored. -/
def applyOpt (tp : TradeParams) (param : String) : TradeParams :=
  if jsStartsWith param "SL=" then
    let slValue := jsParseFloat (splitEqGet1 param)
    if jsIsNaN slValue = false then { tp with stopLoss := some slValue } else tp
  else if jsStartsWith param "TP=" then
    let tpValue := jsParseFloat (splitEqGet1 param)
    if jsIsNaN tpValue = false then { tp with takeProfit := some tpValue } else tp
  else if jsToUpper param = "HOLD" then { tp with hold := true }
  else tp

/-- The `try` block of `parseCommand`, acting on the token list: length
check, direction check, leverage check (`parseInt` of the token with its
first `'x'` removed, range `[1,125]`), quantity check (`parseFloat`, not
`NaN`, `> 0`), then the optional-parameter loop over the remaining tokens. -/
def parseTokens : List String → Except ParseErr TradeParams
  | d :: sym :: lev :: q :: rest =>
    let direction := jsToUpper d
    let quantity := jsParseFloat q
    if ¬ (direction = "BUY" ∨ direction = "SELL") then .error .invalidDirection
    else
      match jsParseInt (jsReplaceFirst lev 'x') with
      | none => .error .invalidLeverage
      | some l =>
        if l < 1 ∨ l > 125 then .error .invalidLeverage
        else if jsIsNaN quantity ∨ jsLeZero quantity then .error .invalidQuantity
        else
          let base : TradeParams :=
            { side := if direction = "BUY" then "LONG" else "SHORT"
              symbol := jsToUpper sym
              leverage := l
              quantity := quantity
              stopLoss := none
              takeProfit := none
              hold := false }
          .ok (rest.foldl applyOpt base)
  | _ => .error .insufficientParameters

/-- `parseCommand`'s `try` block on the raw command string. -/
def parseCommandE (command : String) : Except ParseErr TradeParams :=
  parseTokens (tokenize command)

/-- A console event; only `console.error` inside `parseCommand` is
modelled. -/
inductive LogEvent where
  | consoleError (msg : String)
deriving DecidableEq, Repr

/-- The message `console.error` prints in `parseCommand`'s `catch` (its two
arguments joined by a space). -/
def parseErrorLogMsg (e : ParseErr) : String :=
  "Ошибка: неверный формат команды - " ++ errMessage e

/-- `parseCommand` as callers see it: the thrown error is caught, logged to
the console, and turned into `null` (`none`); the result is paired with the
console output produced during the call. -/
def parseCommand (command : String) : Option TradeParams × List LogEvent :=
  match parseCommandE command with
  | .ok tp => (some tp, [])
  | .error e => (none, [LogEvent.consoleError (parseErrorLogMsg e)])

/-- The payload of a `client.futuresOrder` call.  The source stringifies
`quantity` and `stopPrice` with `toString`; the numeric values are kept
here. -/
structure OrderReq where
  symbol : String
  side : String
  otype : String
  quantity : JSNum
  stopPrice : Option JSNum
  timeInForce : Option String
deriving DecidableEq, Repr

/-- One call issued to the Binance client. -/
inductive GCall where
  | leverage (symbol : String) (lev : Int)
  | order (req : OrderReq)
deriving DecidableEq, Repr

/-- The Binance client as an oracle: each request is mapped to a result or a
thrown error (the error carried as its message string).  A successful order
returns an opaque reference (the order object, identified by its id). -/
structure Gateway where
  leverageResp : String → Int → Except String Unit
  orderResp : OrderReq → Except String Nat

/-- `setLeverage`: issues the `futuresLeverage` call and rethrows its
error. -/
def setLeverage (gw : Gateway) (symbol : String) (leverage : Int) :
    List GCall × Except String Unit :=
  ([GCall.leverage symbol leverage], gw.leverageResp symbol leverage)

/-- The entry order's side for a trade: `'LONG' ? 'BUY' : 'SELL'`. -/
def orderSideFor (side : String) : String :=
  if side = "LONG" then "BUY" else "SELL"

/-- The closing side used for protective orders:
`'LONG' ? 'SELL' : 'BUY'`. -/
def closeSideFor (side : String) : String :=
  if side = "LONG" then "SELL" else "BUY"

/-- The market-entry request `placeMarketOrder` sends. -/
def entryReq (tp : TradeParams) : OrderReq :=
  { symbol := tp.symbol
    side := orderSideFor tp.side
    otype := "MARKET"
    quantity := tp.quantity
    stopPrice := none
    timeInForce := none }

/-- `placeMarketOrder`: sets leverage first (aborting on failure), then
places the `MARKET` order, rethrowing any error. -/
def placeMarketOrder (gw : Gateway) (tp : TradeParams) :
    List GCall × Except String Nat :=
  let s := setLeverage gw tp.symbol tp.leverage
  match s.2 with
  | .error e => (s.1, .error e)
  | .ok _ => (s.1 ++ [GCall.order (entryReq tp)], gw.orderResp (entryReq tp))

/-- The request `placeStopLossOrder` sends. -/
def stopLossReq (symbol side : String) (quantity stopPrice : JSNum) : OrderReq :=
  { symbol := symbol
    side := side
    otype := "STOP_MARKET"
    quantity := quantity
    stopPrice := some stopPrice
    timeInForce := some "GTC" }

/-- The request `placeTakeProfitOrder` sends. -/
def takeProfitReq (symbol side : String) (quantity price : JSNum) : OrderReq :=
  { symbol := symbol
    side := side
    otype := "TAKE_PROFIT_MARKET"
    quantity := quantity
    stopPrice := some price
    timeInForce := some "GTC" }

/-- `placeStopLossOrder`: one `STOP_MARKET` order call, error rethrown. -/
def placeStopLossOrder (gw : Gateway) (symbol side : String)
    (quantity stopPrice : JSNum) : List GCall × Except String Nat :=
  ([GCall.order (stopLossReq symbol side quantity stopPrice)],
    gw.orderResp (stopLossReq symbol side quantity stopPrice))

/-- `placeTakeProfitOrder`: one `TAKE_PROFIT_MARKET` order call, error
rethrown. -/
def placeTakeProfitOrder (gw : Gateway) (symbol side : String)
    (quantity price : JSNum) : List GCall × Except String Nat :=
  ([GCall.order (takeProfitReq symbol side quantity price)],
    gw.orderResp (takeProfitReq symbol side quantity price))

/-- The `if (stopLoss) { await this.placeStopLossOrder(…) }` block of
`executeTrade`: runs only when the stored `stopLoss` is truthy (`null`, `0`
and `NaN` are falsy); the order's return value is discarded, its error is
rethrown. -/
def slStep (gw : Gateway) (tp : TradeParams) : List GCall × Except String Unit :=
  match tp.stopLoss with
  | some v =>
    if jsTruthy v then
      let r := placeStopLossOrder gw tp.symbol (closeSideFor tp.side) tp.quantity v
      (r.1, r.2.map fun _ => ())
    else ([], .ok ())
  | none => ([], .ok ())

/-- The `if (takeProfit) { await this.placeTakeProfitOrder(…) }` block of
`executeTrade`, analogous to `slStep`. -/
def tpStep (gw : Gateway) (tp : TradeParams) : List GCall × Except String Unit :=
  match tp.takeProfit with
  | some v =>
    if jsTruthy v then
      let r := placeTakeProfitOrder gw tp.symbol (closeSideFor tp.side) tp.quantity v
      (r.1, r.2.map fun _ => ())
    else ([], .ok ())
  | none => ([], .ok ())

/-- `executeTrade`: the orchestration run.  Places the market entry (which
itself sets leverage first); unless `hold` is set, runs the stop-loss block
and then the take-profit block, both with the closing side; any error
anywhere is rethrown to the caller.  The returned value on success is
`mainOrder` — only the entry order's reference; the protective orders'
references are discarded. -/
def executeTrade (gw : Gateway) (tp : TradeParams) :
    List GCall × Except String Nat :=
  let m := placeMarketOrder gw tp
  match m.2 with
  | .error e => (m.1, .error e)
  | .ok mainOrder =>
    if tp.hold then (m.1, .ok mainOrder)
    else
      match (slStep gw tp).2 with
      | .error e => (m.1 ++ (slStep gw tp).1, .error e)
      | .ok _ =>
        match (tpStep gw tp).2 with
        | .error e => (m.1 ++ (slStep gw tp).1 ++ (tpStep gw tp).1, .error e)
        | .ok _ => (m.1 ++ (slStep gw tp).1 ++ (tpStep gw tp).1, .ok mainOrder)

/-- Whether a gateway call is a `futuresLeverage` call. -/
def isLeverageCall : GCall → Bool
  | .leverage _ _ => true
  | .order _ => false

/-- Whether a gateway call is a `futuresOrder` call (of any type). -/
def isOrderCall : GCall → Bool
  | .leverage _ _ => false
  | .order _ => true

/-- Whether a gateway call is the market-entry order. -/
def isEntryCall : GCall → Bool
  | .order r => r.otype = "MARKET"
  | _ => false

/-- Whether a gateway call is a conditional (protective) order: a
`STOP_MARKET` or `TAKE_PROFIT_MARKET` order. -/
def isConditionalCall : GCall → Bool
  | .order r => r.otype = "STOP_MARKET" ∨ r.otype = "TAKE_PROFIT_MARKET"
  | _ => false

/-! ### Concrete runs used to exercise the definitions -/

/-- A trade with both protective prices set (from
`"BUY BTCUSDT 20x 1 SL=42000 TP=45000"`). -/
def tpSL : TradeParams :=
  { side := "LONG", symbol := "BTCUSDT", leverage := 20
    quantity := JSNum.val 1, stopLoss := some (JSNum.val 42000)
    takeProfit := some (JSNum.val 45000), hold := false }

/-- The same trade with `HOLD`. -/
def tpHold : TradeParams :=
  { tpSL with hold := true }

/-- A gateway on which every call succeeds; order references are `1` for the
entry, `2` for the stop-loss and `3` for the take-profit order. -/
def gwOk : Gateway :=
  { leverageResp := fun _ _ => .ok ()
    orderResp := fun req =>
      if req.otype = "MARKET" then .ok 1
      else if req.otype = "STOP_MARKET" then .ok 2
      else .ok 3 }

/-- A gateway rejecting the leverage change. -/
def gwLevFail : Gateway :=
  { gwOk with leverageResp := fun _ _ => .error "leverage rejected" }

/-- A gateway rejecting the market entry but accepting everything else. -/
def gwEntryFail : Gateway :=
  { gwOk with orderResp := fun req =>
      if req.otype = "MARKET" then .error "entry rejected"
      else if req.otype = "STOP_MARKET" then .ok 2
      else .ok 3 }

/-- A gateway rejecting the stop-loss order but accepting everything else. -/
def gwStopFail : Gateway :=
  { gwOk with orderResp := fun req =>
      if req.otype = "MARKET" then .ok 1
      else if req.otype = "STOP_MARKET" then .error "stop rejected"
      else .ok 3 }

/-! ### Structural lemmas about one orchestration run -/

theorem placeMarketOrder_mem {gw : Gateway} {tp : TradeParams} {c : GCall}
    (hc : c ∈ (placeMarketOrder gw tp).1) :
    c = GCall.leverage tp.symbol tp.leverage ∨ c = GCall.order (entryReq tp) := by
  unfold placeMarketOrder setLeverage at hc
  cases h : gw.leverageResp tp.symbol tp.leverage <;> simp [h] at hc <;> simp [hc]

theorem slStep_mem {gw : Gateway} {tp : TradeParams} {c : GCall}
    (hc : c ∈ (slStep gw tp).1) :
    ∃ v, tp.stopLoss = some v ∧ jsTruthy v = true ∧
      c = GCall.order (stopLossReq tp.symbol (closeSideFor tp.side) tp.quantity v) := by
  unfold slStep placeStopLossOrder at hc
  cases h : tp.stopLoss with
  | none => simp [h] at hc
  | some v =>
    cases ht : jsTruthy v with
    | false => simp [h, ht] at hc
    | true =>
      simp [h, ht] at hc
      exact ⟨v, rfl, ht, by rw [hc]⟩

theorem tpStep_mem {gw : Gateway} {tp : TradeParams} {c : GCall}
    (hc : c ∈ (tpStep gw tp).1) :
    ∃ v, tp.takeProfit = some v ∧ jsTruthy v = true ∧
      c = GCall.order (takeProfitReq tp.symbol (closeSideFor tp.side) tp.quantity v) := by
  unfold tpStep placeTakeProfitOrder at hc
  cases h : tp.takeProfit with
  | none => simp [h] at hc
  | some v =>
    cases ht : jsTruthy v with
    | false => simp [h, ht] at hc
    | true =>
      simp [h, ht] at hc
      exact ⟨v, rfl, ht, by rw [hc]⟩

theorem executeTrade_mem {gw : Gateway} {tp : TradeParams} {c : GCall}
    (hc : c ∈ (executeTrade gw tp).1) :
    c ∈ (placeMarketOrder gw tp).1 ∨ c ∈ (slStep gw tp).1 ∨ c ∈ (tpStep gw tp).1 := by
  unfold executeTrade at hc
  cases hm : (placeMarketOrder gw tp).2 with
  | error e => simp [hm] at hc; simp [hc]
  | ok r =>
    cases hh : tp.hold with
    | true => simp [hm, hh] at hc; simp [hc]
    | false =>
      cases hs : (slStep gw tp).2 with
      | error e =>
        simp [hm, hh, hs, List.mem_append] at hc
        tauto
      | ok u =>
        cases ht2 : (tpStep gw tp).2 with
        | error e =>
          simp [hm, hh, hs, ht2, List.mem_append] at hc
          tauto
        | ok u2 =>
          simp [hm, hh, hs, ht2, List.mem_append] at hc
          tauto

theorem placeMarketOrder_ok_resp {gw : Gateway} {tp : TradeParams} {m : Nat}
    (h : (placeMarketOrder gw tp).2 = Except.ok m) :
    gw.orderResp (entryReq tp) = Except.ok m := by
  unfold placeMarketOrder setLeverage at h
  cases hl : gw.leverageResp tp.symbol tp.leverage with
  | error e => rw [hl] at h; simp at h
  | ok u => rw [hl] at h; exact h

theorem executeTrade_lev_err {gw : Gateway} {tp : TradeParams} {e : String}
    (h : gw.leverageResp tp.symbol tp.leverage = Except.error e) :
    executeTrade gw tp = ([GCall.leverage tp.symbol tp.leverage], Except.error e) := by
  unfold executeTrade placeMarketOrder setLeverage
  simp [h]

theorem executeTrade_entry_err {gw : Gateway} {tp : TradeParams} {e : String}
    (hl : gw.leverageResp tp.symbol tp.leverage = Except.ok ())
    (ho : gw.orderResp (entryReq tp) = Except.error e) :
    executeTrade gw tp =
      ([GCall.leverage tp.symbol tp.leverage, GCall.order (entryReq tp)],
        Except.error e) := by
  unfold executeTrade placeMarketOrder setLeverage
  simp [hl, ho]

theorem executeTrade_trace_entry_fail {gw : Gateway} {tp : TradeParams}
    (h : (gw.orderResp (entryReq tp)).isOk = false) :
    (executeTrade gw tp).1 = (placeMarketOrder gw tp).1 := by
  cases hm : (placeMarketOrder gw tp).2 with
  | error e => simp [executeTrade, hm]
  | ok r =>
    rw [placeMarketOrder_ok_resp hm] at h
    simp [Except.isOk, Except.toBool] at h

theorem placeMarketOrder_counts (gw : Gateway) (tp : TradeParams) :
    ((placeMarketOrder gw tp).1.countP isConditionalCall = 0) ∧
    ((placeMarketOrder gw tp).1.countP isLeverageCall = 1) ∧
    ((gw.leverageResp tp.symbol tp.leverage).isOk = true →
      (placeMarketOrder gw tp).1.countP isEntryCall = 1) := by
  unfold placeMarketOrder setLeverage
  cases hl : gw.leverageResp tp.symbol tp.leverage with
  | error e =>
    refine ⟨rfl, rfl, fun hOk => ?_⟩
    simp [Except.isOk, Except.toBool] at hOk
  | ok u => exact ⟨rfl, rfl, fun _ => rfl⟩

/-! ### Claim theorems -/

/-- C1: on a run where the leverage call and the market entry succeed (the
entry order gets reference `1`) but the stop-loss conditional order is
rejected, `executeTrade` propagates the stop-loss failure as an error —
discarding the entry-order success — instead of surfacing a partial-success
outcome.  Evaluates the orchestrator at that failing input. -/
theorem executeTrade_stopLoss_failure_propagates :
    gwStopFail.orderResp (entryReq tpSL) = Except.ok 1 ∧
    executeTrade gwStopFail tpSL =
      ([GCall.leverage "BTCUSDT" 20, GCall.order (entryReq tpSL),
        GCall.order (stopLossReq "BTCUSDT" "SELL" (JSNum.val 1) (JSNum.val 42000))],
        Except.error "stop rejected") :=
  ⟨rfl, rfl⟩

/-- C2 counterexample: on a fully successful run where both conditional
orders are actually placed (with gateway references `2` and `3`), the
orchestrator's outcome is `Except.ok 1` — the entry order's reference only —
so it does not contain the references of the conditional orders, contrary to
the claim. -/
theorem executeTrade_outcome_omits_conditional_refs :
    executeTrade gwOk tpSL =
      ([GCall.leverage "BTCUSDT" 20, GCall.order (entryReq tpSL),
        GCall.order (stopLossReq "BTCUSDT" "SELL" (JSNum.val 1) (JSNum.val 42000)),
        GCall.order (takeProfitReq "BTCUSDT" "SELL" (JSNum.val 1) (JSNum.val 45000))],
        Except.ok 1) ∧
    gwOk.orderResp (stopLossReq "BTCUSDT" "SELL" (JSNum.val 1) (JSNum.val 42000)) =
      Except.ok 2 ∧
    gwOk.orderResp (takeProfitReq "BTCUSDT" "SELL" (JSNum.val 1) (JSNum.val 45000)) =
      Except.ok 3 ∧
    (1 : Nat) ≠ 2 ∧ (1 : Nat) ≠ 3 :=
  ⟨rfl, rfl, rfl, by decide, by decide⟩

/-- C2 amended: for every intent executed successfully, the orchestrator's
result is exactly the entry order's reference; the references of conditional
orders placed along the way are discarded, not aggregated. -/
theorem executeTrade_ok_returns_entry_ref (gw : Gateway) (tp : TradeParams) (r : Nat)
    (h : (executeTrade gw tp).2 = Except.ok r) :
    gw.orderResp (entryReq tp) = Except.ok r := by
  have hmain : ∃ m, (placeMarketOrder gw tp).2 = Except.ok m ∧ m = r := by
    cases hm : (placeMarketOrder gw tp).2 with
    | error e => simp [executeTrade, hm] at h
    | ok m =>
      refine ⟨m, rfl, ?_⟩
      cases hh : tp.hold with
      | true => simp [executeTrade, hm, hh] at h; exact h
      | false =>
        cases hs : (slStep gw tp).2 with
        | error e => simp [executeTrade, hm, hh, hs] at h
        | ok u =>
          cases ht2 : (tpStep gw tp).2 with
          | error e => simp [executeTrade, hm, hh, hs, ht2] at h
          | ok u2 => simp [executeTrade, hm, hh, hs, ht2] at h; exact h
  obtain ⟨m, hm, rfl⟩ := hmain
  exact placeMarketOrder_ok_resp hm

/-- Witness for C2 amended: on the all-success gateway, the successful
outcome `1` is the entry order's reference. -/
theorem executeTrade_ok_returns_entry_ref_witness :
    gwOk.orderResp (entryReq tpSL) = Except.ok 1 :=
  executeTrade_ok_returns_entry_ref gwOk tpSL 1 rfl

/-- C4 counterexample: for a `hold = true` intent with both protective prices
set, a run on which the leverage call fails issues the leverage call but zero
market-entry order calls — not "exactly one" as the claim states. -/
theorem hold_entry_call_absent_on_leverage_failure :
    tpHold.hold = true ∧
    tpHold.stopLoss = some (JSNum.val 42000) ∧
    tpHold.takeProfit = some (JSNum.val 45000) ∧
    executeTrade gwLevFail tpHold =
      ([GCall.leverage "BTCUSDT" 20], Except.error "leverage rejected") ∧
    (executeTrade gwLevFail tpHold).1.countP isEntryCall = 0 :=
  ⟨rfl, rfl, rfl, rfl, rfl⟩

/-- C4 amended: for every intent with `hold = true`, executing it never
places a conditional order (even when stopLoss and takeProfit are set), and
exactly one leverage call is issued; exactly one market-entry order call is
issued provided the leverage call succeeds (when the leverage call fails, no
entry order call occurs). -/
theorem hold_suppresses_conditional_orders (gw : Gateway) (tp : TradeParams)
    (hh : tp.hold = true) :
    (executeTrade gw tp).1.countP isConditionalCall = 0 ∧
    (executeTrade gw tp).1.countP isLeverageCall = 1 ∧
    ((gw.leverageResp tp.symbol tp.leverage).isOk = true →
      (executeTrade gw tp).1.countP isEntryCall = 1) := by
  have htr : (executeTrade gw tp).1 = (placeMarketOrder gw tp).1 := by
    cases hm : (placeMarketOrder gw tp).2 with
    | error e => simp [executeTrade, hm]
    | ok r => simp [executeTrade, hm, hh]
  rw [htr]
  exact placeMarketOrder_counts gw tp

/-- Witness for C4 amended: a successful `HOLD` run with both protective
prices set issues no conditional order, one leverage call and one entry
call. -/
theorem hold_suppresses_conditional_orders_witness :
    (executeTrade gwOk tpHold).1.countP isConditionalCall = 0 ∧
    (executeTrade gwOk tpHold).1.countP isLeverageCall = 1 ∧
    (executeTrade gwOk tpHold).1.countP isEntryCall = 1 := by
  obtain ⟨h1, h2, h3⟩ := hold_suppresses_conditional_orders gwOk tpHold rfl
  exact ⟨h1, h2, h3 rfl⟩

/-- C3: if the `setLeverage` call fails, the run issues no order-placement
call at all; and if the market-entry order fails, the run issues no
conditional-order call. -/
theorem executeTrade_failure_cutoffs (gw : Gateway) (tp : TradeParams) :
    ((gw.leverageResp tp.symbol tp.leverage).isOk = false →
      ∀ c ∈ (executeTrade gw tp).1, isOrderCall c = false) ∧
    ((gw.orderResp (entryReq tp)).isOk = false →
      ∀ c ∈ (executeTrade gw tp).1, isConditionalCall c = false) := by
  constructor
  · intro hbad c hc
    cases hl : gw.leverageResp tp.symbol tp.leverage with
    | ok u => rw [hl] at hbad; simp [Except.isOk, Except.toBool] at hbad
    | error e =>
      rw [executeTrade_lev_err hl] at hc
      simp at hc
      rw [hc]
      rfl
  · intro hbad c hc
    rw [executeTrade_trace_entry_fail hbad] at hc
    rcases placeMarketOrder_mem hc with h | h <;> rw [h] <;> rfl

/-- Witness for C3: a leverage-rejecting run issues no order call, and an
entry-rejecting run issues no conditional-order call. -/
theorem executeTrade_failure_cutoffs_witness :
    (∀ c ∈ (executeTrade gwLevFail tpSL).1, isOrderCall c = false) ∧
    (∀ c ∈ (executeTrade gwEntryFail tpSL).1, isConditionalCall c = false) :=
  ⟨(executeTrade_failure_cutoffs gwLevFail tpSL).1 rfl,
   (executeTrade_failure_cutoffs gwEntryFail tpSL).2 rfl⟩

/-- A SHORT-direction trade with both protective prices set. -/
def tpShort : TradeParams :=
  { tpSL with side := "SHORT" }

/-- C8: for every intent with `hold = false`, the entry side and the closing
side used by conditional orders are inverses: a LONG trade enters with side
BUY and every conditional order it places carries side SELL; a SHORT trade
enters with side SELL and every conditional order carries side BUY. -/
theorem entry_and_closing_side_inversion (gw : Gateway) (tp : TradeParams)
    (_hh : tp.hold = false) :
    (tp.side = "LONG" →
      (entryReq tp).side = "BUY" ∧
      ∀ r, GCall.order r ∈ (executeTrade gw tp).1 →
        isConditionalCall (GCall.order r) = true → r.side = "SELL") ∧
    (tp.side = "SHORT" →
      (entryReq tp).side = "SELL" ∧
      ∀ r, GCall.order r ∈ (executeTrade gw tp).1 →
        isConditionalCall (GCall.order r) = true → r.side = "BUY") := by
  constructor
  · intro hs
    refine ⟨by simp [entryReq, orderSideFor, hs], ?_⟩
    intro r hr hcond
    rcases executeTrade_mem hr with h1 | h2 | h3
    · rcases placeMarketOrder_mem h1 with h | h
      · exact absurd h (by simp)
      · have hre : r = entryReq tp := by injection h
        rw [hre] at hcond
        exact absurd hcond (by simp [isConditionalCall, entryReq])
    · rcases slStep_mem h2 with ⟨v, hv, htv, hre⟩
      have : r = stopLossReq tp.symbol (closeSideFor tp.side) tp.quantity v := by
        injection hre
      rw [this]
      simp [stopLossReq, closeSideFor, hs]
    · rcases tpStep_mem h3 with ⟨v, hv, htv, hre⟩
      have : r = takeProfitReq tp.symbol (closeSideFor tp.side) tp.quantity v := by
        injection hre
      rw [this]
      simp [takeProfitReq, closeSideFor, hs]
  · intro hs
    refine ⟨by simp [entryReq, orderSideFor, hs], ?_⟩
    intro r hr hcond
    rcases executeTrade_mem hr with h1 | h2 | h3
    · rcases placeMarketOrder_mem h1 with h | h
      · exact absurd h (by simp)
      · have hre : r = entryReq tp := by injection h
        rw [hre] at hcond
        exact absurd hcond (by simp [isConditionalCall, entryReq])
    · rcases slStep_mem h2 with ⟨v, hv, htv, hre⟩
      have : r = stopLossReq tp.symbol (closeSideFor tp.side) tp.quantity v := by
        injection hre
      rw [this]
      simp [stopLossReq, closeSideFor, hs]
    · rcases tpStep_mem h3 with ⟨v, hv, htv, hre⟩
      have : r = takeProfitReq tp.symbol (closeSideFor tp.side) tp.quantity v := by
        injection hre
      rw [this]
      simp [takeProfitReq, closeSideFor, hs]

/-- Witness for C8: side inversion on concrete LONG and SHORT runs. -/
theorem entry_and_closing_side_inversion_witness :
    ((entryReq tpSL).side = "BUY" ∧
      ∀ r, GCall.order r ∈ (executeTrade gwOk tpSL).1 →
        isConditionalCall (GCall.order r) = true → r.side = "SELL") ∧
    ((entryReq tpShort).side = "SELL" ∧
      ∀ r, GCall.order r ∈ (executeTrade gwOk tpShort).1 →
        isConditionalCall (GCall.order r) = true → r.side = "BUY") :=
  ⟨(entry_and_closing_side_inversion gwOk tpSL rfl).1 rfl,
   (entry_and_closing_side_inversion gwOk tpShort rfl).2 rfl⟩

/-- The intent parsed from `"BUY BTCUSDT 5x 1 SL=0 TP=0"`. -/
def tpZero : TradeParams :=
  { side := "LONG", symbol := "BTCUSDT", leverage := 5
    quantity := JSNum.val 1, stopLoss := some (JSNum.val 0)
    takeProfit := some (JSNum.val 0), hold := false }

/-- C10: a command supplying `SL=0` and `TP=0` parses to an intent that
stores the value `0` in both protective fields with `hold = false`, yet
executing that intent on any gateway places no conditional order, because
the orchestrator gates each placement on the truthiness of the stored value
and `0` is falsy. -/
theorem sl_zero_stored_but_not_placed :
    parseCommandE "BUY BTCUSDT 5x 1 SL=0 TP=0" = Except.ok tpZero ∧
    tpZero.stopLoss = some (JSNum.val 0) ∧
    tpZero.takeProfit = some (JSNum.val 0) ∧
    tpZero.hold = false ∧
    ∀ gw : Gateway, (executeTrade gw tpZero).1.countP isConditionalCall = 0 := by
  refine ⟨rfl, rfl, rfl, rfl, ?_⟩
  intro gw
  have h1 : slStep gw tpZero = ([], Except.ok ()) := rfl
  have h2 : tpStep gw tpZero = ([], Except.ok ()) := rfl
  cases hm : (placeMarketOrder gw tpZero).2 with
  | error e =>
    have htr : (executeTrade gw tpZero).1 = (placeMarketOrder gw tpZero).1 := by
      simp [executeTrade, hm]
    rw [htr]
    exact (placeMarketOrder_counts gw tpZero).1
  | ok r =>
    have htr : (executeTrade gw tpZero).1 = (placeMarketOrder gw tpZero).1 := by
      simp [executeTrade, hm, h1, h2]
    rw [htr]
    exact (placeMarketOrder_counts gw tpZero).1

/-- C5 counterexample: the leverage token `"20"`, which does not match the
pattern `<integer>x` (it has no trailing `x` at all), is accepted with
leverage `20` instead of failing with InvalidLeverage. -/
theorem leverage_token_without_x_accepted :
    parseCommandE "BUY BTCUSDT 20 1" =
      Except.ok
        { side := "LONG", symbol := "BTCUSDT", leverage := 20
          quantity := JSNum.val 1, stopLoss := none, takeProfit := none
          hold := false } :=
  rfl

/-- The leverage check of `parseCommand`: `parseInt` of the token with its
first `'x'` removed is `NaN` or lies outside `[1,125]`. -/
def leverageInvalid (lev : String) : Bool :=
  match jsParseInt (jsReplaceFirst lev 'x') with
  | none => true
  | some l => decide (l < 1 ∨ l > 125)

/-- C5 amended: the leverage token is processed by deleting its first
lowercase `'x'` and applying `parseInt` (a leading-integer parse; no trailing
`x` is required and trailing garbage is ignored); parse fails with
InvalidLeverage exactly when that yields no integer or one outside `[1,125]`.
Boundary values 1 and 125 are accepted; 0 and 126 are rejected. -/
theorem leverage_validation_rule (d sym lev q : String) (rest : List String)
    (hd : jsToUpper d = "BUY" ∨ jsToUpper d = "SELL") :
    (parseTokens (d :: sym :: lev :: q :: rest) =
        Except.error ParseErr.invalidLeverage ↔ leverageInvalid lev = true) ∧
    (parseCommandE "BUY BTCUSDT 1x 1").isOk = true ∧
    (parseCommandE "BUY BTCUSDT 125x 1").isOk = true ∧
    parseCommandE "BUY BTCUSDT 0x 1" = Except.error ParseErr.invalidLeverage ∧
    parseCommandE "BUY BTCUSDT 126x 1" = Except.error ParseErr.invalidLeverage := by
  refine ⟨?_, rfl, rfl, rfl, rfl⟩
  unfold parseTokens
  dsimp only
  rw [if_neg (not_not_intro hd)]
  cases hparse : jsParseInt (jsReplaceFirst lev 'x') with
  | none => simp [leverageInvalid, hparse]
  | some l =>
    dsimp only
    by_cases hrange : l < 1 ∨ l > 125
    · simp [leverageInvalid, hparse, hrange]
    · rw [if_neg hrange]
      simp only [leverageInvalid, hparse]
      constructor
      · intro h
        by_cases hq : (jsIsNaN (jsParseFloat q) = true ∨ jsLeZero (jsParseFloat q) = true)
        · rw [if_pos hq] at h
          simp at h
        · rw [if_neg hq] at h
          simp at h
      · intro h
        rw [decide_eq_true_iff] at h
        exact absurd h hrange

/-- Witness for C5 amended, at the token `"20"` without a trailing `x`. -/
theorem leverage_validation_rule_witness :
    (parseTokens ["BUY", "BTCUSDT", "20", "1"] =
        Except.error ParseErr.invalidLeverage ↔ leverageInvalid "20" = true) ∧
    (parseCommandE "BUY BTCUSDT 1x 1").isOk = true ∧
    (parseCommandE "BUY BTCUSDT 125x 1").isOk = true ∧
    parseCommandE "BUY BTCUSDT 0x 1" = Except.error ParseErr.invalidLeverage ∧
    parseCommandE "BUY BTCUSDT 126x 1" = Except.error ParseErr.invalidLeverage :=
  leverage_validation_rule "BUY" "BTCUSDT" "20" "1" [] (Or.inl rfl)

/-- C6 counterexample: the quantity token `"Infinity"` — not a finite
decimal — is accepted, producing an intent whose quantity is `+Infinity`,
instead of failing with InvalidQuantity. -/
theorem infinite_quantity_accepted :
    parseCommandE "BUY BTCUSDT 5x Infinity" =
      Except.ok
        { side := "LONG", symbol := "BTCUSDT", leverage := 5
          quantity := JSNum.inf, stopLoss := none, takeProfit := none
          hold := false } :=
  rfl

/-- The quantity check of `parseCommand`: `parseFloat` of the token is `NaN`
or `<= 0`. -/
def quantityInvalid (q : String) : Bool :=
  jsIsNaN (jsParseFloat q) || jsLeZero (jsParseFloat q)

/-- C6 amended: the quantity token is read with `parseFloat` (longest numeric
prefix); given valid direction and leverage tokens, parse fails with
InvalidQuantity exactly when the parsed value is `NaN` or `<= 0` — so
non-positive and non-numeric tokens are rejected, but the non-finite token
`Infinity` (and numeric-prefixed garbage) is accepted. -/
theorem quantity_validation_rule (d sym lev q : String) (rest : List String)
    (hd : jsToUpper d = "BUY" ∨ jsToUpper d = "SELL")
    (hl : leverageInvalid lev = false) :
    parseTokens (d :: sym :: lev :: q :: rest) =
        Except.error ParseErr.invalidQuantity ↔ quantityInvalid q = true := by
  unfold parseTokens
  dsimp only
  rw [if_neg (not_not_intro hd)]
  unfold leverageInvalid at hl
  cases hparse : jsParseInt (jsReplaceFirst lev 'x') with
  | none => rw [hparse] at hl; simp at hl
  | some l =>
    rw [hparse] at hl
    rw [decide_eq_false_iff_not] at hl
    dsimp only
    rw [if_neg hl]
    by_cases hq : (jsIsNaN (jsParseFloat q) = true ∨ jsLeZero (jsParseFloat q) = true)
    · rw [if_pos hq]
      simp [quantityInvalid, Bool.or_eq_true, hq]
    · rw [if_neg hq]
      simp only [quantityInvalid, Bool.or_eq_true]
      constructor
      · intro h
        simp at h
      · intro h
        exact absurd h hq

/-- Witness for C6 amended, at the non-positive quantity token `"-1"`. -/
theorem quantity_validation_rule_witness :
    parseTokens ["BUY", "BTCUSDT", "5x", "-1"] =
        Except.error ParseErr.invalidQuantity ↔ quantityInvalid "-1" = true :=
  quantity_validation_rule "BUY" "BTCUSDT" "5x" "-1" [] (Or.inl rfl) rfl

/-- C7 counterexample: the lowercase token `"sl=100"` does not set stopLoss
(the intent keeps `stopLoss = null`), while the uppercase `"SL=100"` does —
the `SL=` key is not matched case-insensitively. -/
theorem lowercase_sl_key_ignored :
    parseCommandE "BUY BTCUSDT 5x 1 sl=100" =
      Except.ok
        { side := "LONG", symbol := "BTCUSDT", leverage := 5
          quantity := JSNum.val 1, stopLoss := none, takeProfit := none
          hold := false } ∧
    parseCommandE "BUY BTCUSDT 5x 1 SL=100" =
      Except.ok
        { side := "LONG", symbol := "BTCUSDT", leverage := 5
          quantity := JSNum.val 1, stopLoss := some (JSNum.val 100)
          takeProfit := none, hold := false } :=
  ⟨rfl, rfl⟩

/-- C7 amended: among the optional tokens, only `HOLD` is matched
case-insensitively (via `toUpperCase`); the `SL=` and `TP=` keys are matched
case-sensitively (uppercase only), and any other token — including lowercase
`sl=…`/`tp=…` — leaves the intent unchanged. -/
theorem optional_keyword_case_rules (tp : TradeParams) (s : String) :
    (jsStartsWith s "SL=" = false → jsStartsWith s "TP=" = false →
      jsToUpper s = "HOLD" → applyOpt tp s = { tp with hold := true }) ∧
    (jsStartsWith s "SL=" = false → jsStartsWith s "TP=" = false →
      jsToUpper s ≠ "HOLD" → applyOpt tp s = tp) ∧
    applyOpt tp "sl=100" = tp ∧
    applyOpt tp "SL=100" = { tp with stopLoss := some (JSNum.val 100) } := by
  refine ⟨?_, ?_, rfl, rfl⟩
  · intro h1 h2 h3
    simp [applyOpt, h1, h2, h3]
  · intro h1 h2 h3
    simp [applyOpt, h1, h2, h3]

/-- Witness for C7 amended: `"hOlD"` sets the hold flag, `"moon"` is
ignored. -/
theorem optional_keyword_case_rules_witness :
    applyOpt tpSL "hOlD" = { tpSL with hold := true } ∧
    applyOpt tpSL "moon" = tpSL :=
  ⟨(optional_keyword_case_rules tpSL "hOlD").1 rfl rfl rfl,
   (optional_keyword_case_rules tpSL "moon").2.1 rfl rfl (by decide)⟩

/-- C9 counterexample: parsing a malformed command logs to the console
(refuting "the parser performs no logging"), and two commands malformed for
different reasons yield the same returned value (`null`), so the returned
failure carries no machine-distinguishable reason. -/
theorem parse_failure_logs_and_collapses_to_null :
    (parseCommand "foo").2 ≠ [] ∧
    (parseCommand "foo").1 = (parseCommand "BUY BTCUSDT 0x 1").1 :=
  ⟨by decide, rfl⟩

/-- C9 amended: the four failure reasons exist only internally (as distinct
thrown error messages); for every malformed command, `parseCommand` returns
`null` — carrying no reason — and emits exactly one `console.error` log,
which is where the reason's message surfaces. -/
theorem parse_failure_null_with_log (s : String) (e : ParseErr)
    (h : parseCommandE s = Except.error e) :
    parseCommand s = (none, [LogEvent.consoleError (parseErrorLogMsg e)]) := by
  unfold parseCommand
  rw [h]

/-- Witness for C9 amended, at the one-token command `"foo"`. -/
theorem parse_failure_null_with_log_witness :
    parseCommand "foo" =
      (none,
        [LogEvent.consoleError (parseErrorLogMsg ParseErr.insufficientParameters)]) :=
  parse_failure_null_with_log "foo" ParseErr.insufficientParameters rfl

end TelegramBinanceBot
